import Mathlib

/-!
Shallow embedding of the fastapi-backend core: the soft-delete-aware
generic repository, the user/address repositories and services, and the
authorization guard, together with theorems checking the specification's
claims about them.

Conventions of the embedding:
* a database table is a `List` of rows in insertion order;
* Python `datetime` values are abstract `Nat` instants supplied by the
  caller (`now`), `None` is `Option.none`;
* an HTTP exception raised by the code is an `ApiError.http status detail`
  value; a raised `ValueError` is `ApiError.valueError`; an unhandled
  `AttributeError` (attribute access on `None`) is `ApiError.attributeError`;
* a mutating operation returns the successor store paired with an
  `Except ApiError result`; when the Python code raises before its
  `session.commit()`, the request-scoped session is discarded without
  committing (`app/core/db.py`), so the error branch carries the original
  store unchanged.
-/

/-- Errors surfaced by the embedded code paths. -/
inductive ApiError where
  | http (statusCode : Nat) (detail : String)
  | valueError (detail : String)
  | attributeError
  deriving Repr, DecidableEq

/- ===================== Address data model (app/models/models.py) ===================== -/

/-- Database row of the `addresses` table (`Address` in `app/models/models.py`). -/
structure Address where
  id : Nat
  owner_id : Nat
  street_address : Option String := none
  apartment : Option String := none
  city : Option String := none
  county : Option String := none
  postal_code : Option String := none
  is_default : Bool := false
  delivery_instructions : Option String := none
  created_at : Nat := 0
  updated_at : Nat := 0
  deleted_at : Option Nat := none
  deriving Repr, DecidableEq

/-- Public address representation (`AddressPublic`): base fields plus
`id`, `owner_id` and timestamps; no `deleted_at`. -/
structure AddressPublic where
  street_address : Option String
  apartment : Option String
  city : Option String
  county : Option String
  postal_code : Option String
  is_default : Bool
  delivery_instructions : Option String
  id : Nat
  owner_id : Nat
  created_at : Nat
  updated_at : Nat
  deriving Repr, DecidableEq

/-- `AddressPublic.model_validate(address)`: project a row onto its public fields. -/
def AddressPublic.ofAddress (a : Address) : AddressPublic :=
  { street_address := a.street_address
    apartment := a.apartment
    city := a.city
    county := a.county
    postal_code := a.postal_code
    is_default := a.is_default
    delivery_instructions := a.delivery_instructions
    id := a.id
    owner_id := a.owner_id
    created_at := a.created_at
    updated_at := a.updated_at }

deriving instance DecidableEq for Except

/-- The `addresses` table: rows in insertion order. -/
abbrev AddressStore := List Address

namespace AddressRepo

/-- `BaseRepo.get` specialized to `Address`: the base query filters rows
whose `deleted_at` is set, then selects by primary key
(`scalar_one_or_none`; primary keys are unique). -/
def get (store : AddressStore) (id : Nat) : Option Address :=
  (store.filter (fun a => a.deleted_at.isNone)).find? (fun a => a.id == id)

/-- `AddressRepo.get_by_owner`: all non-deleted addresses of the owner. -/
def get_by_owner (store : AddressStore) (owner_id : Nat) : List Address :=
  store.filter (fun a => a.owner_id == owner_id && a.deleted_at.isNone)

/-- `AddressRepo.get_default`: the non-deleted address of the owner with
the default flag set, if any. -/
def get_default (store : AddressStore) (owner_id : Nat) : Option Address :=
  store.find? (fun a => a.deleted_at.isNone && a.owner_id == owner_id && a.is_default)

/-- Per-row effect of `AddressRepo.clear_default`: the loop mutates exactly
the owner's non-deleted addresses that have the default flag set. -/
def clearOne (owner_id : Nat) (a : Address) : Address :=
  if a.owner_id == owner_id && a.deleted_at.isNone && a.is_default then
    { a with is_default := false }
  else a

/-- `AddressRepo.clear_default`: unset the default flag on every
non-deleted address of the owner that has it set. -/
def clear_default (store : AddressStore) (owner_id : Nat) : AddressStore :=
  store.map (clearOne owner_id)

/-- Per-row effect of the set step of `AddressRepo.set_default`. -/
def setFlagOne (address_id : Nat) (a : Address) : Address :=
  if a.id == address_id then { a with is_default := true } else a

/-- `AddressRepo.set_default`: `clear_default(owner_id)`, then
`self.get(address_id)` (no ownership filter), then
`address.is_default = True` and commit. When `get` returns `None`, the
attribute assignment on `None` raises an `AttributeError` before any
commit, so the session's pending changes are discarded. -/
def set_default (store : AddressStore) (address_id owner_id : Nat) :
    AddressStore × Except ApiError Address :=
  let s1 := clear_default store owner_id
  match get s1 address_id with
  | none => (store, .error .attributeError)
  | some address =>
      (s1.map (setFlagOne address_id), .ok { address with is_default := true })

end AddressRepo

namespace AddressService

/-- `AddressService.get_address`: `repo.get`, then 404 when the row is
absent or its owner differs from the caller. -/
def get_address (store : AddressStore) (address_id owner_id : Nat) :
    Except ApiError AddressPublic :=
  match AddressRepo.get store address_id with
  | none => .error (.http 404 "Address not found")
  | some address =>
      if address.owner_id != owner_id then .error (.http 404 "Address not found")
      else .ok (AddressPublic.ofAddress address)

/-- `AddressService.set_default`: thin wrapper over `AddressRepo.set_default`
returning the public projection. -/
def set_default (store : AddressStore) (address_id owner_id : Nat) :
    AddressStore × Except ApiError AddressPublic :=
  match AddressRepo.set_default store address_id owner_id with
  | (s, .error e) => (s, .error e)
  | (s, .ok a) => (s, .ok (AddressPublic.ofAddress a))

end AddressService

/-- The non-deleted addresses of an owner carrying the default flag: the
set the "exactly one default per owner" invariant constrains. -/
def ownerLiveDefaults (store : AddressStore) (owner_id : Nat) : List Address :=
  store.filter (fun a => a.deleted_at.isNone && a.owner_id == owner_id && a.is_default)

/- ===================== User data model (app/models/models.py) ===================== -/

/-- Database row of the `users` table (`User` in `app/models/models.py`). -/
structure User where
  id : Nat
  email : String
  full_name : Option String := none
  phone_number : Option String := none
  is_active : Bool := true
  is_verified : Bool := false
  role : String := "customer"
  created_at : Nat := 0
  updated_at : Nat := 0
  last_login : Option Nat := none
  deleted_at : Option Nat := none
  hashed_password : String
  deriving Repr, DecidableEq

/-- Creation schema `UserCreate`: the public base fields plus the plaintext
password. -/
structure UserCreate where
  email : String
  full_name : Option String := none
  phone_number : Option String := none
  is_active : Bool := true
  is_verified : Bool := false
  role : String := "customer"
  password : String
  deriving Repr, DecidableEq

/-- Public user representation (`UserPublic`): the base fields plus `id`,
timestamps and `last_login`; no `hashed_password`, no `deleted_at`. -/
structure UserPublic where
  email : String
  full_name : Option String
  phone_number : Option String
  is_active : Bool
  is_verified : Bool
  role : String
  id : Nat
  created_at : Nat
  updated_at : Nat
  last_login : Option Nat
  deriving Repr, DecidableEq

/-- `UserPublic.model_validate(user)`: project a row onto its public fields. -/
def UserPublic.ofUser (u : User) : UserPublic :=
  { email := u.email
    full_name := u.full_name
    phone_number := u.phone_number
    is_active := u.is_active
    is_verified := u.is_verified
    role := u.role
    id := u.id
    created_at := u.created_at
    updated_at := u.updated_at
    last_login := u.last_login }

/-- The password hashing primitives of `app/core/security.py`, treated as an
opaque hash-and-verify capability per the specification's scope. -/
structure HashCap where
  hashF : String → String
  verifyF : String → String → Bool

/-- The `users` table: rows in insertion order. -/
abbrev UserStore := List User

namespace UserRepo

/-- `BaseRepo.get` specialized to `User`: soft-delete filter, then primary key. -/
def get (store : UserStore) (id : Nat) : Option User :=
  (store.filter (fun u => u.deleted_at.isNone)).find? (fun u => u.id == id)

/-- `UserRepo.get_user_by_email`: exact email match among non-deleted rows. -/
def get_user_by_email (store : UserStore) (email : String) : Option User :=
  store.find? (fun u => u.email == email && u.deleted_at.isNone)

/-- `UserRepo.create_user`: build the row from the creation schema minus the
password, store the hash of the password, append and commit. The generated
primary key and the clock are supplied by the caller. -/
def create_user (cap : HashCap) (store : UserStore) (user_in : UserCreate)
    (newId now : Nat) : UserStore × User :=
  let db_obj : User :=
    { id := newId
      email := user_in.email
      full_name := user_in.full_name
      phone_number := user_in.phone_number
      is_active := user_in.is_active
      is_verified := user_in.is_verified
      role := user_in.role
      created_at := now
      updated_at := now
      hashed_password := cap.hashF user_in.password }
  (store ++ [db_obj], db_obj)

/-- `UserRepo.update_password`: overwrite the hash on the given row, bump
`updated_at`, commit. -/
def update_password (cap : HashCap) (store : UserStore) (db_obj : User)
    (new_password : String) (now : Nat) : UserStore × User :=
  let upd := { db_obj with hashed_password := cap.hashF new_password, updated_at := now }
  (store.map (fun u => if u.id == db_obj.id then upd else u), upd)

end UserRepo

namespace UserService

/-- `UserService.create_user`: 400 when a non-deleted user with the email
exists (raised before any mutation), else delegate to the repository and
return the public projection. -/
def create_user (cap : HashCap) (store : UserStore) (user_in : UserCreate)
    (newId now : Nat) : UserStore × Except ApiError UserPublic :=
  match UserRepo.get_user_by_email store user_in.email with
  | some _ => (store, .error (.http 400 "A user with this email already exists"))
  | none =>
      let created := UserRepo.create_user cap store user_in newId now
      (created.1, .ok (UserPublic.ofUser created.2))

/-- `UserService.change_password`: 400 when the old password does not verify,
400 when the new password verifies against the current hash, else replace the
hash via `UserRepo.update_password`. Both error paths raise before any
mutation. -/
def change_password (cap : HashCap) (store : UserStore) (user : User)
    (old_password new_password : String) (now : Nat) :
    UserStore × Except ApiError Unit :=
  if !(cap.verifyF old_password user.hashed_password) then
    (store, .error (.http 400 "Incorrect password"))
  else if cap.verifyF new_password user.hashed_password then
    (store, .error (.http 400 "New password cannot be same as current"))
  else
    ((UserRepo.update_password cap store user new_password now).1, .ok ())

end UserService

/- ===================== Authorization guard (app/api/deps.py) ===================== -/

/-- `AsyncSession.get(User, sub)`: a raw primary-key lookup; it applies no
soft-delete filtering. -/
def sessionGetUser (store : UserStore) (sub : Nat) : Option User :=
  store.find? (fun u => u.id == sub)

/-- `get_current_user`: the decode step is the opaque validate-token
capability, summarized as `none` (signature/expiry/shape failure) or
`some sub` (the decoded subject). Then the subject is looked up by primary
key, a missing row is 404, an inactive user is 400. -/
def get_current_user (store : UserStore) (token : Option Nat) : Except ApiError User :=
  match token with
  | none => .error (.http 403 "Could not validate credentials")
  | some sub =>
      match sessionGetUser store sub with
      | none => .error (.http 404 "User not found")
      | some user =>
          if !user.is_active then .error (.http 400 "Inactive user")
          else .ok user

/- ===================== Generic base repository (app/repositories/base.py) ===================== -/

/-- A Python attribute value, with `vnone` standing for `None`. -/
inductive Value where
  | vnone
  | vnat (n : Nat)
  | vstr (s : String)
  | vbool (b : Bool)
  deriving Repr, DecidableEq

/-- The entity type handled by a `BaseRepo` instance: its class name and the
attributes declared on the model (`hasattr(self.model, k)` consults these). -/
structure Model where
  name : String
  attrNames : List String
  deriving Repr, DecidableEq

/-- `hasattr(model, k)` for a declared model attribute. -/
def Model.hasAttr (m : Model) (k : String) : Bool :=
  m.attrNames.contains k

/-- A generic database row: primary key plus its attribute map. -/
structure Row where
  id : Nat
  attrs : List (String × Value)
  deriving Repr, DecidableEq

/-- Lookup of a key in an attribute map (first binding wins). -/
def lookupAttr : List (String × Value) → String → Value
  | [], _ => .vnone
  | (k', v) :: rest, k => if k' == k then v else lookupAttr rest k

/-- `getattr(row, k)` for attributes guarded by `hasattr` checks; rows of a
model carry the model's attributes. -/
def getAttr (r : Row) (k : String) : Value :=
  lookupAttr r.attrs k

/-- `setattr` on the attribute map: overwrite the first binding of the key,
append if absent. -/
def setKey : List (String × Value) → String → Value → List (String × Value)
  | [], k, v => [(k, v)]
  | (k', v') :: rest, k, v =>
      if k' == k then (k, v) :: rest else (k', v') :: setKey rest k v

/-- `setattr(row, k, v)`. -/
def setAttr (r : Row) (k : String) (v : Value) : Row :=
  { r with attrs := setKey r.attrs k v }

namespace BaseRepo

/-- `BaseRepo._base_query`: start from all rows and, when the model has a
`deleted_at` attribute, keep only rows where it is `None`. -/
def baseQuery (m : Model) (store : List Row) : List Row :=
  if m.hasAttr "deleted_at" then
    store.filter (fun r => getAttr r "deleted_at" == .vnone)
  else store

/-- `BaseRepo.get`: base query restricted to the primary key
(`scalar_one_or_none`; primary keys are unique). -/
def get (m : Model) (store : List Row) (id : Nat) : Option Row :=
  (baseQuery m store).find? (fun r => r.id == id)

/-- The conjunction of where-clauses added by the filter loop of
`get_listing`/`get_count`: an entry contributes an equality clause only when
its value is not `None` and its key is a model attribute. -/
def filtersPred (m : Model) (filters : List (String × Option Value)) (r : Row) : Bool :=
  filters.all (fun kv =>
    match kv.2 with
    | none => true
    | some v => if m.hasAttr kv.1 then getAttr r kv.1 == v else true)

/-- `BaseRepo.get_listing`: base query, filter loop, then offset and limit. -/
def get_listing (m : Model) (store : List Row) (skip limit : Nat)
    (filters : List (String × Option Value)) : List Row :=
  let query := baseQuery m store
  let query := query.filter (filtersPred m filters)
  (query.drop skip).take limit

/-- `BaseRepo.get_count`: `select count` with its own soft-delete filter and
the same filter loop. -/
def get_count (m : Model) (store : List Row)
    (filters : List (String × Option Value)) : Nat :=
  let query :=
    if m.hasAttr "deleted_at" then
      store.filter (fun r => getAttr r "deleted_at" == .vnone)
    else store
  (query.filter (filtersPred m filters)).length

/-- `BaseRepo.update`: 404 when the row's `deleted_at` is set; otherwise set
each explicitly provided field (`model_dump(exclude_unset=True)` yields a
dict, so keys are distinct), refresh `updated_at` when the model has it, and
return the mutated row. -/
def update (m : Model) (db_obj : Row) (update_data : List (String × Value))
    (now : Nat) : Except ApiError Row :=
  if m.hasAttr "deleted_at" && getAttr db_obj "deleted_at" != .vnone then
    .error (.http 404 "Record not found or has been deleted")
  else
    let r1 := update_data.foldl (fun r kv => setAttr r kv.1 kv.2) db_obj
    let r2 := if m.hasAttr "updated_at" then setAttr r1 "updated_at" (.vnat now) else r1
    .ok r2

/-- `BaseRepo.soft_delete`: `ValueError` when the model has no `deleted_at`
attribute; 404 when the soft-delete-filtered `get` finds no live row;
otherwise set `deleted_at` and commit. -/
def soft_delete (m : Model) (store : List Row) (id now : Nat) :
    List Row × Except ApiError Row :=
  if !m.hasAttr "deleted_at" then
    (store, .error (.valueError
      (m.name ++ " does not support soft delete. Add 'deleted_at: datetime | None' field to enable.")))
  else
    match get m store id with
    | none => (store, .error (.http 404 (m.name ++ " not found")))
    | some db_obj =>
        let upd := setAttr db_obj "deleted_at" (.vnat now)
        (store.map (fun r => if r.id == id then setAttr r "deleted_at" (.vnat now) else r),
          .ok upd)

end BaseRepo

/- ===================== Helper lemmas: address default-flag protocol ===================== -/

namespace AddressRepo

@[simp] lemma clearOne_id (o : Nat) (a : Address) : (clearOne o a).id = a.id := by
  unfold clearOne; split <;> rfl

@[simp] lemma clearOne_owner (o : Nat) (a : Address) : (clearOne o a).owner_id = a.owner_id := by
  unfold clearOne; split <;> rfl

@[simp] lemma clearOne_deleted (o : Nat) (a : Address) : (clearOne o a).deleted_at = a.deleted_at := by
  unfold clearOne; split <;> rfl

lemma clearOne_default (o : Nat) (a : Address) :
    (clearOne o a).is_default = (a.is_default && !(a.owner_id == o && a.deleted_at.isNone)) := by
  unfold clearOne
  cases ho : a.owner_id == o <;> cases hl : a.deleted_at.isNone <;>
    cases hdf : a.is_default <;> simp [ho, hl, hdf]

@[simp] lemma setFlagOne_id (i : Nat) (a : Address) : (setFlagOne i a).id = a.id := by
  unfold setFlagOne; split <;> rfl

@[simp] lemma setFlagOne_owner (i : Nat) (a : Address) : (setFlagOne i a).owner_id = a.owner_id := by
  unfold setFlagOne; split <;> rfl

@[simp] lemma setFlagOne_deleted (i : Nat) (a : Address) : (setFlagOne i a).deleted_at = a.deleted_at := by
  unfold setFlagOne; split <;> rfl

end AddressRepo

/-- A list filter selecting a unique key picks exactly the known matching
element. -/
lemma filter_eq_singleton_of_key {α : Type} (key : α → Nat) (l : List α) (p : α → Bool)
    (a : α) (hnd : (l.map key).Nodup) (ha : a ∈ l) (hpa : p a = true)
    (hkey : ∀ x, p x = true → key x = key a) :
    l.filter p = [a] := by
  induction l with
  | nil => cases ha
  | cons y t ih =>
    rw [List.map_cons, List.nodup_cons] at hnd
    cases hp : p y
    · have hay : a ≠ y := fun h => by rw [h] at hpa; rw [hpa] at hp; cases hp
      have hat : a ∈ t := by
        rcases List.mem_cons.mp ha with h | h
        · exact absurd h hay
        · exact h
      simp only [List.filter_cons, hp, cond_false]
      exact ih hnd.2 hat
    · have hya : y = a := by
        rcases List.mem_cons.mp ha with h | h
        · exact h.symm
        · exfalso
          exact hnd.1 (by
            rw [hkey y hp]
            exact List.mem_map.mpr ⟨a, h, rfl⟩)
      have hft : t.filter p = [] := by
        rw [List.filter_eq_nil_iff]
        intro x hx hpx
        exact hnd.1 (by
          rw [hya, ← hkey x hpx]
          exact List.mem_map.mpr ⟨x, hx, rfl⟩)
      subst hya
      simp [List.filter_cons, hp, hft]

/-- `find?` returns the known element when it is the only one satisfying the
predicate. -/
lemma find?_eq_some_of_unique {α : Type} (l : List α) (p : α → Bool) (a : α)
    (ha : a ∈ l) (hpa : p a = true) (huniq : ∀ x ∈ l, p x = true → x = a) :
    l.find? p = some a := by
  induction l with
  | nil => cases ha
  | cons y t ih =>
    cases hp : p y
    · rw [List.find?_cons_of_neg _ (by simp [hp])]
      have hay : a ≠ y := fun h => by rw [h] at hpa; rw [hpa] at hp; cases hp
      have hat : a ∈ t := by
        rcases List.mem_cons.mp ha with h | h
        · exact absurd h hay
        · exact h
      exact ih hat (fun x hx hpx => huniq x (List.mem_cons_of_mem _ hx) hpx)
    · rw [List.find?_cons_of_pos _ hp]
      rw [huniq y (List.mem_cons_self _ _) hp]

/-- Commuting a filter past a map. -/
lemma filter_comp_map {α β : Type} (f : α → β) (p : β → Bool) (l : List α) :
    (l.map f).filter p = (l.filter (fun x => p (f x))).map f := by
  induction l with
  | nil => rfl
  | cons y t ih =>
    simp only [List.map_cons, List.filter_cons]
    cases hp : p (f y)
    · simpa [hp] using ih
    · simpa [hp] using ih

/- ===================== Claim theorems ===================== -/

/-- C2: after `clear_default(owner)` no non-deleted address of the owner has
the default flag set; per row, addresses of other owners and addresses whose
flag is already unset are left unchanged; and when no non-deleted address of
the owner is default, the whole call leaves the store unchanged. -/
theorem claim_C2 (store : AddressStore) (owner_id : Nat) :
    ownerLiveDefaults (AddressRepo.clear_default store owner_id) owner_id = [] ∧
    (∀ a : Address, a.owner_id ≠ owner_id ∨ a.is_default = false →
      AddressRepo.clearOne owner_id a = a) ∧
    ((∀ a ∈ store, a.owner_id = owner_id → a.deleted_at = none → a.is_default = false) →
      AddressRepo.clear_default store owner_id = store) := by
  refine ⟨?_, ?_, ?_⟩
  · unfold ownerLiveDefaults AddressRepo.clear_default
    rw [List.filter_eq_nil_iff]
    intro x hx
    obtain ⟨y, _, rfl⟩ := List.mem_map.mp hx
    simp only [AddressRepo.clearOne_deleted, AddressRepo.clearOne_owner,
      AddressRepo.clearOne_default, Bool.and_eq_true, Bool.not_eq_true]
    rintro ⟨⟨hlive, howner⟩, hdef⟩
    simp [howner, hlive] at hdef
  · intro a h
    unfold AddressRepo.clearOne
    split
    · rename_i hc
      simp only [Bool.and_eq_true, beq_iff_eq] at hc
      rcases h with h | h
      · exact absurd hc.1.1 h
      · rw [h] at hc; cases hc.2
    · rfl
  · intro h
    unfold AddressRepo.clear_default
    induction store with
    | nil => rfl
    | cons y t ih =>
      have hy : AddressRepo.clearOne owner_id y = y := by
        unfold AddressRepo.clearOne
        split
        · rename_i hc
          simp only [Bool.and_eq_true, beq_iff_eq, Option.isNone_iff_eq_none] at hc
          have := h y (List.mem_cons_self _ _) hc.1.1 hc.1.2
          rw [this] at hc; cases hc.2
        · rfl
      rw [List.map_cons, hy, ih (fun a hat => h a (List.mem_cons_of_mem _ hat))]

/-- C2 witness: a store whose owner-7 addresses have no default is left
unchanged by `clear_default`. -/
theorem claim_C2_witness :
    AddressRepo.clear_default
      [{ id := 1, owner_id := 7 }, { id := 2, owner_id := 8, is_default := true }] 7 =
      [{ id := 1, owner_id := 7 }, { id := 2, owner_id := 8, is_default := true }] :=
  (claim_C2 [{ id := 1, owner_id := 7 }, { id := 2, owner_id := 8, is_default := true }] 7).2.2
    (by decide)

/-- C4: `get_address` fails with the same 404 "Address not found" both when
no live address with the id exists and when the address exists but is owned
by someone else; every failure of `get_address` is that same 404 — in
particular it never fails with a 403 Forbidden. -/
theorem claim_C4 (store : AddressStore) (address_id owner_id : Nat) :
    (AddressRepo.get store address_id = none →
      AddressService.get_address store address_id owner_id =
        .error (.http 404 "Address not found")) ∧
    (∀ a, AddressRepo.get store address_id = some a → a.owner_id ≠ owner_id →
      AddressService.get_address store address_id owner_id =
        .error (.http 404 "Address not found")) ∧
    (∀ s d, AddressService.get_address store address_id owner_id = .error (.http s d) →
      s = 404 ∧ d = "Address not found") := by
  refine ⟨?_, ?_, ?_⟩
  · intro h
    unfold AddressService.get_address
    rw [h]
  · intro a h hne
    unfold AddressService.get_address
    rw [h]
    simp [bne_iff_ne, hne]
  · intro s d h
    unfold AddressService.get_address at h
    cases hg : AddressRepo.get store address_id with
    | none =>
      rw [hg] at h
      cases h
      exact ⟨rfl, rfl⟩
    | some a =>
      rw [hg] at h
      by_cases ho : a.owner_id = owner_id
      · simp [ho] at h
      · simp only [bne_iff_ne, ne_eq, ho, not_false_eq_true, if_pos] at h
        cases h
        exact ⟨rfl, rfl⟩

/-- C4 witness: a foreign-owned address yields the same 404 as a missing one. -/
theorem claim_C4_witness :
    AddressService.get_address [{ id := 1, owner_id := 7 }] 1 9 =
      .error (.http 404 "Address not found") :=
  (claim_C4 [{ id := 1, owner_id := 7 }] 1 9).2.1 { id := 1, owner_id := 7 } (by decide)
    (by decide)

/-- The per-row effect of a whole `set_default(A, owner)` call on the store:
`clearOne` then `setFlagOne`. -/
def setDefaultOne (owner_id address_id : Nat) (a : Address) : Address :=
  AddressRepo.setFlagOne address_id (AddressRepo.clearOne owner_id a)

lemma setDefaultOne_id (o A : Nat) (a : Address) : (setDefaultOne o A a).id = a.id := by
  unfold setDefaultOne; simp

lemma setDefaultOne_owner (o A : Nat) (a : Address) :
    (setDefaultOne o A a).owner_id = a.owner_id := by
  unfold setDefaultOne; simp

lemma setDefaultOne_deleted (o A : Nat) (a : Address) :
    (setDefaultOne o A a).deleted_at = a.deleted_at := by
  unfold setDefaultOne; simp

/-- After clear-then-set, a row is a live default of the owner exactly when
it is the targeted row and was live and owned. -/
lemma liveDefault_setDefaultOne (o A : Nat) (x : Address) :
    ((setDefaultOne o A x).deleted_at.isNone && (setDefaultOne o A x).owner_id == o &&
      (setDefaultOne o A x).is_default) =
    (x.id == A && x.deleted_at.isNone && x.owner_id == o) := by
  unfold setDefaultOne AddressRepo.setFlagOne
  cases hid : (AddressRepo.clearOne o x).id == A
  · rw [if_neg (by simp [hid])]
    rw [AddressRepo.clearOne_id] at hid
    rw [hid]
    simp only [AddressRepo.clearOne_deleted, AddressRepo.clearOne_owner,
      AddressRepo.clearOne_default, Bool.false_and]
    cases hl : x.deleted_at.isNone <;> cases ho : x.owner_id == o <;>
      cases hdf : x.is_default <;> simp [hl, ho, hdf]
  · rw [if_pos (by simp [hid])]
    rw [AddressRepo.clearOne_id] at hid
    rw [hid]
    simp [AddressRepo.clearOne_deleted, AddressRepo.clearOne_owner, Bool.and_comm]

/-- The base `get` on the cleared store finds exactly the targeted row when
that row is live and ids are unique. -/
lemma get_clear_default_eq (store : AddressStore) (o A : Nat) (a : Address)
    (hnd : (store.map Address.id).Nodup) (ha : a ∈ store) (haid : a.id = A)
    (halive : a.deleted_at = none) :
    AddressRepo.get (AddressRepo.clear_default store o) A =
      some (AddressRepo.clearOne o a) := by
  unfold AddressRepo.get AddressRepo.clear_default
  apply find?_eq_some_of_unique
  · rw [List.mem_filter]
    refine ⟨List.mem_map.mpr ⟨a, ha, rfl⟩, ?_⟩
    simp [halive]
  · simp [haid]
  · intro x hx hpx
    rw [List.mem_filter] at hx
    obtain ⟨y, hy, rfl⟩ := List.mem_map.mp hx.1
    have hyid : y.id = a.id := by
      have : y.id = A := by simpa [beq_iff_eq] using hpx
      rw [this, haid]
    have := List.inj_on_of_nodup_map hnd hy ha hyid
    rw [this]

/-- After a successful `set_default(A, owner)`, the live defaults of the
owner are exactly the (unique) row with id `A`. -/
lemma ownerLiveDefaults_after_set (store : AddressStore) (o A : Nat) (a : Address)
    (hnd : (store.map Address.id).Nodup) (ha : a ∈ store) (haid : a.id = A)
    (haow : a.owner_id = o) (halive : a.deleted_at = none) :
    ownerLiveDefaults ((AddressRepo.clear_default store o).map (AddressRepo.setFlagOne A)) o =
      [setDefaultOne o A a] := by
  unfold ownerLiveDefaults AddressRepo.clear_default
  rw [List.map_map]
  have hmap : (AddressRepo.setFlagOne A ∘ AddressRepo.clearOne o) = setDefaultOne o A := by
    funext x
    rfl
  rw [hmap, filter_comp_map]
  have hfil :
      store.filter (fun x =>
        (setDefaultOne o A x).deleted_at.isNone && (setDefaultOne o A x).owner_id == o &&
          (setDefaultOne o A x).is_default) =
      store.filter (fun x => x.id == A && x.deleted_at.isNone && x.owner_id == o) := by
    apply List.filter_congr
    intro x _
    exact liveDefault_setDefaultOne o A x
  rw [hfil]
  rw [filter_eq_singleton_of_key Address.id store _ a hnd ha
    (by simp [haid, halive, haow])
    (fun x hpx => by
      have : x.id = A := by
        rw [Bool.and_eq_true, Bool.and_eq_true] at hpx
        simpa [beq_iff_eq] using hpx.1.1
      rw [this, haid])]
  rfl

/-- A successful repo `set_default(A, owner)` rewrites the store row-by-row
with `setDefaultOne` and returns the targeted row with the flag set. -/
lemma set_default_eq (store : AddressStore) (o A : Nat) (a : Address)
    (hnd : (store.map Address.id).Nodup) (ha : a ∈ store) (haid : a.id = A)
    (halive : a.deleted_at = none) :
    AddressRepo.set_default store A o =
      (store.map (setDefaultOne o A), .ok (setDefaultOne o A a)) := by
  have hget := get_clear_default_eq store o A a hnd ha haid halive
  simp only [AddressRepo.set_default, hget]
  unfold AddressRepo.clear_default
  rw [List.map_map]
  have hmap : (AddressRepo.setFlagOne A ∘ AddressRepo.clearOne o) = setDefaultOne o A := by
    funext x
    rfl
  rw [hmap]
  have hval : setDefaultOne o A a = { AddressRepo.clearOne o a with is_default := true } := by
    unfold setDefaultOne AddressRepo.setFlagOne
    rw [if_pos (by simp [haid])]
  rw [hval]

lemma setDefaultOne_map_ids (o A : Nat) (store : AddressStore) :
    (store.map (setDefaultOne o A)).map Address.id = store.map Address.id := by
  rw [List.map_map]
  apply List.map_congr_left
  intro x _
  exact setDefaultOne_id o A x

/-- C1: with serialized access and a live address `A` of the owner, a
successful `set_default(A, owner)` leaves exactly one non-deleted address of
the owner carrying the default flag, namely `A`; running
`set_default(B, owner)` next moves that unique default to `B`. -/
theorem claim_C1 (store : AddressStore) (owner_id A B : Nat) (a b : Address)
    (hnd : (store.map Address.id).Nodup)
    (ha : a ∈ store) (haid : a.id = A) (haow : a.owner_id = owner_id)
    (halive : a.deleted_at = none)
    (hb : b ∈ store) (hbid : b.id = B) (hbow : b.owner_id = owner_id)
    (hblive : b.deleted_at = none)
    (_hAB : A ≠ B) :
    ∃ s1 a1, AddressRepo.set_default store A owner_id = (s1, .ok a1) ∧
      (ownerLiveDefaults s1 owner_id).map Address.id = [A] ∧
      ∃ s2 a2, AddressRepo.set_default s1 B owner_id = (s2, .ok a2) ∧
        (ownerLiveDefaults s2 owner_id).map Address.id = [B] := by
  have h1 := set_default_eq store owner_id A a hnd ha haid halive
  refine ⟨store.map (setDefaultOne owner_id A), setDefaultOne owner_id A a, h1, ?_, ?_⟩
  · have := ownerLiveDefaults_after_set store owner_id A a hnd ha haid haow halive
    unfold AddressRepo.clear_default at this
    rw [List.map_map] at this
    have hmap : (AddressRepo.setFlagOne A ∘ AddressRepo.clearOne owner_id) =
        setDefaultOne owner_id A := by
      funext x
      rfl
    rw [hmap] at this
    rw [this, List.map_cons, List.map_nil, setDefaultOne_id, haid]
  · set s1 := store.map (setDefaultOne owner_id A) with hs1
    have hnd1 : (s1.map Address.id).Nodup := by
      rw [hs1, setDefaultOne_map_ids]
      exact hnd
    have hb1 : setDefaultOne owner_id A b ∈ s1 := List.mem_map.mpr ⟨b, hb, rfl⟩
    have hbid1 : (setDefaultOne owner_id A b).id = B := by rw [setDefaultOne_id, hbid]
    have hbow1 : (setDefaultOne owner_id A b).owner_id = owner_id := by
      rw [setDefaultOne_owner, hbow]
    have hblive1 : (setDefaultOne owner_id A b).deleted_at = none := by
      rw [setDefaultOne_deleted, hblive]
    have h2 := set_default_eq s1 owner_id B (setDefaultOne owner_id A b) hnd1 hb1 hbid1 hblive1
    refine ⟨s1.map (setDefaultOne owner_id B),
      setDefaultOne owner_id B (setDefaultOne owner_id A b), h2, ?_⟩
    have := ownerLiveDefaults_after_set s1 owner_id B (setDefaultOne owner_id A b)
      hnd1 hb1 hbid1 hbow1 hblive1
    unfold AddressRepo.clear_default at this
    rw [List.map_map] at this
    have hmap : (AddressRepo.setFlagOne B ∘ AddressRepo.clearOne owner_id) =
        setDefaultOne owner_id B := by
      funext x
      rfl
    rw [hmap] at this
    rw [this, List.map_cons, List.map_nil, setDefaultOne_id, setDefaultOne_id, hbid]

/-- C1 witness: two live addresses of owner 7; setting id 1 default then id 2
default leaves id 2 as the unique live default each time. -/
theorem claim_C1_witness :
    ∃ s1 a1,
      AddressRepo.set_default [{ id := 1, owner_id := 7 }, { id := 2, owner_id := 7 }] 1 7 =
        (s1, .ok a1) ∧
      (ownerLiveDefaults s1 7).map Address.id = [1] ∧
      ∃ s2 a2, AddressRepo.set_default s1 2 7 = (s2, .ok a2) ∧
        (ownerLiveDefaults s2 7).map Address.id = [2] :=
  claim_C1 [{ id := 1, owner_id := 7 }, { id := 2, owner_id := 7 }] 7 1 2
    { id := 1, owner_id := 7 } { id := 2, owner_id := 7 }
    (by decide) (by decide) (by decide) (by decide) (by decide)
    (by decide) (by decide) (by decide) (by decide) (by decide)



/-- The user row of the C5 counterexample: soft-deleted yet active. -/
def c5User : User :=
  { id := 5, email := "a@x.com", deleted_at := some 1, hashed_password := "hash" }

/-- C5 counterexample: the guard resolves a token whose subject is a
soft-deleted user and returns that user instead of failing with 404
(`session.get` applies no soft-delete filter). -/
theorem claim_C5_counterexample :
    c5User.deleted_at = some 1 ∧ get_current_user [c5User] (some 5) = .ok c5User := by
  constructor
  · rfl
  · rfl

/-- C5 (amended): after a valid token decode, the guard resolves the subject
by a raw primary-key lookup with no soft-delete filtering; it fails with 404
only when no user row with that id exists at all, fails with 400 when the
resolved row (deleted or not) is inactive, and otherwise returns the resolved
row even when its deletion timestamp is set. -/
theorem claim_C5 (store : UserStore) (sub : Nat) :
    (sessionGetUser store sub = none →
      get_current_user store (some sub) = .error (.http 404 "User not found")) ∧
    (∀ u, sessionGetUser store sub = some u → u.is_active = false →
      get_current_user store (some sub) = .error (.http 400 "Inactive user")) ∧
    (∀ u, sessionGetUser store sub = some u → u.is_active = true →
      get_current_user store (some sub) = .ok u) := by
  refine ⟨?_, ?_, ?_⟩
  · intro h
    simp only [get_current_user, h]
  · intro u h hact
    simp only [get_current_user, h]
    simp [hact]
  · intro u h hact
    simp only [get_current_user, h]
    simp [hact]

/-- C5 witness: the soft-deleted-but-active row of the counterexample is
returned by the amended contract's success branch. -/
theorem claim_C5_witness : get_current_user [c5User] (some 5) = .ok c5User :=
  (claim_C5 [c5User] 5).2.2 c5User (by decide) (by decide)

/-- C6: `create_user` fails with the conflict error (HTTP 400, duplicate
email) exactly when `get_user_by_email` finds a non-deleted user with the
email, leaving the store unchanged; otherwise it appends the created row and
returns its public projection, and the public projection is independent of
the stored password hash. -/
theorem claim_C6 (cap : HashCap) (store : UserStore) (user_in : UserCreate)
    (newId now : Nat) :
    (∀ u, UserRepo.get_user_by_email store user_in.email = some u →
      UserService.create_user cap store user_in newId now =
        (store, .error (.http 400 "A user with this email already exists"))) ∧
    (UserRepo.get_user_by_email store user_in.email = none →
      ∃ row, UserService.create_user cap store user_in newId now =
        (store ++ [row], .ok (UserPublic.ofUser row))) ∧
    (∀ (u : User) (h : String),
      UserPublic.ofUser { u with hashed_password := h } = UserPublic.ofUser u) := by
  refine ⟨?_, ?_, ?_⟩
  · intro u h
    unfold UserService.create_user
    rw [h]
  · intro h
    refine ⟨(UserRepo.create_user cap store user_in newId now).2, ?_⟩
    unfold UserService.create_user
    rw [h]
    rfl
  · intro u h
    rfl

/-- C6 witness: creating a user whose email already belongs to a live row
fails with the duplicate-email conflict and leaves the store as it was. -/
theorem claim_C6_witness :
    UserService.create_user ⟨fun p => p, fun p h => p == h⟩
      [{ id := 1, email := "a@x.com", hashed_password := "pw" }]
      { email := "a@x.com", password := "pw123456" } 2 9 =
      ([{ id := 1, email := "a@x.com", hashed_password := "pw" }],
        .error (.http 400 "A user with this email already exists")) :=
  (claim_C6 ⟨fun p => p, fun p h => p == h⟩
      [{ id := 1, email := "a@x.com", hashed_password := "pw" }]
      { email := "a@x.com", password := "pw123456" } 2 9).1
    { id := 1, email := "a@x.com", hashed_password := "pw" } (by decide)

/-- C9: `change_password` fails with 400 and leaves the store untouched when
the old password does not verify against the stored hash, fails with 400 and
leaves the store untouched when the new password verifies against the current
hash, and otherwise commits `update_password`, after which every row with the
user's id carries a hash against which the new password verifies. -/
theorem claim_C9 (cap : HashCap) (store : UserStore) (user : User)
    (oldP newP : String) (now : Nat)
    (hlaw : ∀ p, cap.verifyF p (cap.hashF p) = true) :
    (cap.verifyF oldP user.hashed_password = false →
      UserService.change_password cap store user oldP newP now =
        (store, .error (.http 400 "Incorrect password"))) ∧
    (cap.verifyF oldP user.hashed_password = true →
      cap.verifyF newP user.hashed_password = true →
      UserService.change_password cap store user oldP newP now =
        (store, .error (.http 400 "New password cannot be same as current"))) ∧
    (cap.verifyF oldP user.hashed_password = true →
      cap.verifyF newP user.hashed_password = false →
      UserService.change_password cap store user oldP newP now =
        ((UserRepo.update_password cap store user newP now).1, .ok ()) ∧
      ∀ x ∈ (UserRepo.update_password cap store user newP now).1, x.id = user.id →
        cap.verifyF newP x.hashed_password = true) := by
  refine ⟨?_, ?_, ?_⟩
  · intro h
    unfold UserService.change_password
    rw [h]
    rfl
  · intro hold hnew
    unfold UserService.change_password
    rw [hold, hnew]
    rfl
  · intro hold hnew
    constructor
    · unfold UserService.change_password
      rw [hold, hnew]
      rfl
    · intro x hx hxid
      unfold UserRepo.update_password at hx
      simp only [List.mem_map] at hx
      obtain ⟨y, _, rfl⟩ := hx
      by_cases hy : y.id = user.id
      · rw [if_pos (by simpa [beq_iff_eq] using hy)]
        exact hlaw newP
      · rw [if_neg (by simpa [beq_iff_eq] using hy)] at hxid ⊢
        exact absurd hxid hy

/-- A concrete lawful hash capability for the C9 witness. -/
def c9Cap : HashCap := ⟨fun p => "h:" ++ p, fun p h => ("h:" ++ p) == h⟩

/-- The stored user of the C9 witness, holding the hash of "oldpw123". -/
def c9User : User := { id := 3, email := "c@x.com", hashed_password := "h:oldpw123" }

/-- C9 witness: with the correct old password and a genuinely new password,
`change_password` commits the replacement and the new password verifies. -/
theorem claim_C9_witness :
    UserService.change_password c9Cap [c9User] c9User "oldpw123" "newpw123" 4 =
      ((UserRepo.update_password c9Cap [c9User] c9User "newpw123" 4).1, .ok ()) ∧
    ∀ x ∈ (UserRepo.update_password c9Cap [c9User] c9User "newpw123" 4).1,
      x.id = c9User.id → c9Cap.verifyF "newpw123" x.hashed_password = true :=
  (claim_C9 c9Cap [c9User] c9User "oldpw123" "newpw123" 4
      (fun p => by simp [c9Cap])).2.2 (by decide) (by decide)

/-- C3 failing input: a single live address with id 2 owned by user 20,
targeted by a `set_default` call whose caller is user 10. -/
def c3Store : AddressStore := [{ id := 2, owner_id := 20 }]

/-- C3, code behavior at the failing input: the service `set_default` run by
caller 10 against the live address of owner 20 succeeds and returns the
foreign address's public projection instead of failing with 404; and run
against a nonexistent id it raises an unhandled `AttributeError`
(`None.is_default`), again not a 404. -/
theorem claim_C3_code_eval :
    AddressService.set_default c3Store 2 10 =
      ([{ id := 2, owner_id := 20, is_default := true }],
        .ok (AddressPublic.ofAddress { id := 2, owner_id := 20, is_default := true })) ∧
    AddressService.set_default c3Store 5 10 = (c3Store, .error .attributeError) := by
  constructor
  · rfl
  · rfl
/- ===================== Helper lemmas: generic attribute maps ===================== -/

lemma lookupAttr_setKey_self (l : List (String × Value)) (k : String) (v : Value) :
    lookupAttr (setKey l k v) k = v := by
  induction l with
  | nil => simp [setKey, lookupAttr]
  | cons p rest ih =>
    obtain ⟨k0, v0⟩ := p
    by_cases hp : k0 = k
    · rw [setKey, if_pos (by simpa using hp), lookupAttr, if_pos (by simp)]
    · rw [setKey, if_neg (by simpa using hp), lookupAttr,
        if_neg (by simpa using hp)]
      exact ih

lemma lookupAttr_setKey_ne (l : List (String × Value)) (k k' : String) (v : Value)
    (h : k' ≠ k) :
    lookupAttr (setKey l k v) k' = lookupAttr l k' := by
  induction l with
  | nil =>
    rw [setKey, lookupAttr, lookupAttr, if_neg (by simpa using fun hh => h hh.symm)]
    rfl
  | cons p rest ih =>
    obtain ⟨k0, v0⟩ := p
    by_cases hp : k0 = k
    · subst hp
      rw [setKey, if_pos (by simp), lookupAttr, lookupAttr,
        if_neg (by simpa using fun hh => h hh.symm),
        if_neg (by simpa using fun hh => h hh.symm)]
    · rw [setKey, if_neg (by simpa using hp), lookupAttr, lookupAttr]
      by_cases hk0 : k0 = k'
      · rw [if_pos (by simpa using hk0), if_pos (by simpa using hk0)]
      · rw [if_neg (by simpa using hk0), if_neg (by simpa using hk0)]
        exact ih

lemma getAttr_setAttr_self (r : Row) (k : String) (v : Value) :
    getAttr (setAttr r k v) k = v := by
  unfold getAttr setAttr
  exact lookupAttr_setKey_self r.attrs k v

lemma getAttr_setAttr_ne (r : Row) (k k' : String) (v : Value) (h : k' ≠ k) :
    getAttr (setAttr r k v) k' = getAttr r k' := by
  unfold getAttr setAttr
  exact lookupAttr_setKey_ne r.attrs k k' v h

lemma setAttr_rowid (r : Row) (k : String) (v : Value) : (setAttr r k v).id = r.id := rfl

/-- The field-setting loop of `BaseRepo.update`. -/
def applyUpdates (update_data : List (String × Value)) (r : Row) : Row :=
  update_data.foldl (fun r kv => setAttr r kv.1 kv.2) r

lemma applyUpdates_rowid (l : List (String × Value)) (r : Row) :
    (applyUpdates l r).id = r.id := by
  induction l generalizing r with
  | nil => rfl
  | cons kv rest ih =>
    unfold applyUpdates at ih ⊢
    rw [List.foldl_cons, ih, setAttr_rowid]

lemma applyUpdates_not_mem (l : List (String × Value)) (r : Row) (k : String)
    (h : k ∉ l.map Prod.fst) :
    getAttr (applyUpdates l r) k = getAttr r k := by
  induction l generalizing r with
  | nil => rfl
  | cons kv rest ih =>
    rw [List.map_cons, List.mem_cons] at h
    push_neg at h
    unfold applyUpdates
    rw [List.foldl_cons]
    have hr := ih (setAttr r kv.1 kv.2) h.2
    unfold applyUpdates at hr
    rw [hr, getAttr_setAttr_ne _ _ _ _ h.1]

lemma applyUpdates_mem (l : List (String × Value)) (r : Row) (k : String) (v : Value)
    (hnd : (l.map Prod.fst).Nodup) (h : (k, v) ∈ l) :
    getAttr (applyUpdates l r) k = v := by
  induction l generalizing r with
  | nil => cases h
  | cons kv rest ih =>
    rw [List.map_cons, List.nodup_cons] at hnd
    rcases List.mem_cons.mp h with h1 | h1
    · rw [← h1] at hnd ⊢
      unfold applyUpdates
      rw [List.foldl_cons]
      have hr : getAttr (applyUpdates rest (setAttr r k v)) k =
          getAttr (setAttr r k v) k := applyUpdates_not_mem rest _ k hnd.1
      unfold applyUpdates at hr
      rw [hr, getAttr_setAttr_self]
    · unfold applyUpdates
      rw [List.foldl_cons]
      exact ih (setAttr r kv.1 kv.2) hnd.2 h1

/-- C7: the generic `update` fails with 404 on an entity whose deletion
timestamp is set (raising before any field is touched); `soft_delete` fails
with a `ValueError` when the entity type has no `deleted_at` attribute, and
fails with 404 when no live entity matches the id — in particular when every
row with the id, such as an already-soft-deleted entity, has `deleted_at`
set. Both failing `soft_delete` paths leave the store unchanged. -/
theorem claim_C7 (m : Model) (db_obj : Row) (update_data : List (String × Value))
    (store : List Row) (id now : Nat) :
    (m.hasAttr "deleted_at" = true → getAttr db_obj "deleted_at" ≠ .vnone →
      BaseRepo.update m db_obj update_data now =
        .error (.http 404 "Record not found or has been deleted")) ∧
    (m.hasAttr "deleted_at" = false →
      BaseRepo.soft_delete m store id now =
        (store, .error (.valueError (m.name ++
          " does not support soft delete. Add 'deleted_at: datetime | None' field to enable.")))) ∧
    (m.hasAttr "deleted_at" = true →
      (∀ x ∈ store, x.id = id → getAttr x "deleted_at" ≠ .vnone) →
      BaseRepo.soft_delete m store id now =
        (store, .error (.http 404 (m.name ++ " not found")))) := by
  refine ⟨?_, ?_, ?_⟩
  · intro hm hdel
    unfold BaseRepo.update
    rw [if_pos (by simp [hm, bne_iff_ne, hdel])]
  · intro hm
    unfold BaseRepo.soft_delete
    rw [if_pos (by simp [hm])]
  · intro hm hall
    have hget : BaseRepo.get m store id = none := by
      unfold BaseRepo.get BaseRepo.baseQuery
      rw [if_pos (by simp [hm]), List.find?_eq_none]
      intro x hx
      rw [List.mem_filter] at hx
      simp only [beq_iff_eq] at hx ⊢
      intro hxid
      exact hall x hx.1 hxid (by simpa [beq_iff_eq] using hx.2)
    unfold BaseRepo.soft_delete
    rw [if_neg (by simp [hm])]
    simp only [hget]

/-- C7 witness: soft-deleting through a model without a `deleted_at`
attribute fails with the `ValueError`, store untouched. -/
theorem claim_C7_witness :
    BaseRepo.soft_delete { name := "Token", attrNames := ["kind"] } [] 3 9 =
      ([], .error (.valueError
        "Token does not support soft delete. Add 'deleted_at: datetime | None' field to enable.")) :=
  (claim_C7 { name := "Token", attrNames := ["kind"] } { id := 0, attrs := [] } [] [] 3 9).2.1
    (by decide)

/-- The entity type of the C8 witness. -/
def c8Model : Model :=
  { name := "Address", attrNames := ["city", "county", "updated_at", "deleted_at"] }

/-- The live row of the C8 witness. -/
def c8Row : Row :=
  { id := 4, attrs := [("city", .vstr "Nairobi"), ("county", .vstr "Kenya"),
    ("updated_at", .vnat 1), ("deleted_at", .vnone)] }

/-- The single-field partial payload of the C8 witness. -/
def c8Upd : List (String × Value) := [("city", .vstr "Daystar")]

/-- C8: on a live entity the generic `update` succeeds and sets exactly the
explicitly-provided fields to the supplied values, leaves every other
attribute unchanged, refreshes `updated_at` when the entity type has it
(leaving it alone when it has none and the payload does not set it),
preserves the primary key, and returns the mutated entity. -/
theorem claim_C8 (m : Model) (db_obj : Row) (update_data : List (String × Value))
    (now : Nat)
    (hlive : (m.hasAttr "deleted_at" && getAttr db_obj "deleted_at" != .vnone) = false)
    (hnd : (update_data.map Prod.fst).Nodup) :
    ∃ r', BaseRepo.update m db_obj update_data now = .ok r' ∧
      r'.id = db_obj.id ∧
      (∀ k v, (k, v) ∈ update_data → (m.hasAttr "updated_at" = true → k ≠ "updated_at") →
        getAttr r' k = v) ∧
      (∀ k, k ∉ update_data.map Prod.fst → k ≠ "updated_at" →
        getAttr r' k = getAttr db_obj k) ∧
      (m.hasAttr "updated_at" = true → getAttr r' "updated_at" = .vnat now) ∧
      (m.hasAttr "updated_at" = false → "updated_at" ∉ update_data.map Prod.fst →
        getAttr r' "updated_at" = getAttr db_obj "updated_at") := by
  have hupd : BaseRepo.update m db_obj update_data now =
      .ok (if m.hasAttr "updated_at" then
            setAttr (applyUpdates update_data db_obj) "updated_at" (.vnat now)
          else applyUpdates update_data db_obj) := by
    unfold BaseRepo.update
    rw [if_neg (by simp [hlive])]
    rfl
  refine ⟨_, hupd, ?_, ?_, ?_, ?_, ?_⟩
  · cases hm : m.hasAttr "updated_at" <;>
      simp [hm, setAttr_rowid, applyUpdates_rowid]
  · intro k v hkv hk
    cases hm : m.hasAttr "updated_at"
    · simp only [hm, Bool.false_eq_true, if_false]
      exact applyUpdates_mem update_data db_obj k v hnd hkv
    · simp only [hm, if_true]
      rw [getAttr_setAttr_ne _ _ _ _ (hk hm)]
      exact applyUpdates_mem update_data db_obj k v hnd hkv
  · intro k hk hk'
    cases hm : m.hasAttr "updated_at"
    · simp only [hm, Bool.false_eq_true, if_false]
      exact applyUpdates_not_mem update_data db_obj k hk
    · simp only [hm, if_true]
      rw [getAttr_setAttr_ne _ _ _ _ hk']
      exact applyUpdates_not_mem update_data db_obj k hk
  · intro hm
    simp only [hm, if_true]
    rw [getAttr_setAttr_self]
  · intro hm hk
    simp only [hm, Bool.false_eq_true, if_false]
    exact applyUpdates_not_mem update_data db_obj "updated_at" hk

/-- C8 witness: a partial update of one field on a live row of an entity type
with `updated_at` and `deleted_at`. -/
theorem claim_C8_witness :
    ∃ r', BaseRepo.update c8Model c8Row c8Upd 8 = .ok r' ∧
      r'.id = c8Row.id ∧
      (∀ k v, (k, v) ∈ c8Upd → (c8Model.hasAttr "updated_at" = true → k ≠ "updated_at") →
        getAttr r' k = v) ∧
      (∀ k, k ∉ c8Upd.map Prod.fst → k ≠ "updated_at" →
        getAttr r' k = getAttr c8Row k) ∧
      (c8Model.hasAttr "updated_at" = true → getAttr r' "updated_at" = .vnat 8) ∧
      (c8Model.hasAttr "updated_at" = false → "updated_at" ∉ c8Upd.map Prod.fst →
        getAttr r' "updated_at" = getAttr c8Row "updated_at") :=
  claim_C8 c8Model c8Row c8Upd 8 (by decide) (by decide)

/-- The filter predicate ignores entries whose value is null or whose key is
not a model attribute. -/
lemma filtersPred_clean (m : Model) (filters : List (String × Option Value)) (r : Row) :
    BaseRepo.filtersPred m filters r =
      BaseRepo.filtersPred m
        (filters.filter (fun kv => kv.2.isSome && m.hasAttr kv.1)) r := by
  induction filters with
  | nil => rfl
  | cons kv rest ih =>
    obtain ⟨key, vOpt⟩ := kv
    rw [List.filter_cons]
    cases vOpt with
    | none =>
      rw [if_neg (by simp)]
      unfold BaseRepo.filtersPred at ih ⊢
      rw [List.all_cons]
      simpa using ih
    | some v =>
      cases hm : m.hasAttr key
      · rw [if_neg (by simp [hm])]
        unfold BaseRepo.filtersPred at ih ⊢
        rw [List.all_cons, ← ih]
        simp [hm]
      · rw [if_pos (by simp [hm])]
        unfold BaseRepo.filtersPred at ih ⊢
        rw [List.all_cons, List.all_cons, ih]

/-- C10: with the same filters, the gateway's count equals the length of the
listing taken from skip 0 with any limit at least the count; and the filter
predicate shared by both silently ignores entries whose value is null or
whose key is not a model attribute. -/
theorem claim_C10 (m : Model) (store : List Row)
    (filters : List (String × Option Value)) (limit : Nat) (r : Row)
    (h : BaseRepo.get_count m store filters ≤ limit) :
    (BaseRepo.get_listing m store 0 limit filters).length =
      BaseRepo.get_count m store filters ∧
    BaseRepo.filtersPred m filters r =
      BaseRepo.filtersPred m
        (filters.filter (fun kv => kv.2.isSome && m.hasAttr kv.1)) r := by
  constructor
  · have hq : BaseRepo.get_count m store filters =
        ((BaseRepo.baseQuery m store).filter (BaseRepo.filtersPred m filters)).length := rfl
    rw [hq] at h
    simp only [BaseRepo.get_listing, List.drop_zero, List.length_take]
    rw [hq]
    exact Nat.min_eq_right h
  · exact filtersPred_clean m filters r

/-- C10 witness: counting equals listing on a store with one live and one
soft-deleted match, under a filter map with a null entry and an unknown key. -/
theorem claim_C10_witness :
    (BaseRepo.get_listing { name := "User", attrNames := ["role", "deleted_at"] }
        [{ id := 1, attrs := [("role", .vstr "admin"), ("deleted_at", .vnone)] },
          { id := 2, attrs := [("role", .vstr "admin"), ("deleted_at", .vnat 3)] }]
        0 100 [("role", some (.vstr "admin")), ("is_active", none),
          ("ghost", some (.vbool true))]).length =
      BaseRepo.get_count { name := "User", attrNames := ["role", "deleted_at"] }
        [{ id := 1, attrs := [("role", .vstr "admin"), ("deleted_at", .vnone)] },
          { id := 2, attrs := [("role", .vstr "admin"), ("deleted_at", .vnat 3)] }]
        [("role", some (.vstr "admin")), ("is_active", none),
          ("ghost", some (.vbool true))] :=
  (claim_C10 { name := "User", attrNames := ["role", "deleted_at"] }
    [{ id := 1, attrs := [("role", .vstr "admin"), ("deleted_at", .vnone)] },
      { id := 2, attrs := [("role", .vstr "admin"), ("deleted_at", .vnat 3)] }]
    [("role", some (.vstr "admin")), ("is_active", none), ("ghost", some (.vbool true))]
    100 { id := 0, attrs := [] } (by decide)).1
